import Mathlib

/-!
Shallow embedding of the partial-update product handler
(`src/server/src/handlers/dummy_handler.ts`) together with the schema types
(`src/server/src/schema.ts`), and proofs of the specified properties.

The handler receives an update request (an id plus four optional fields),
builds a change-set containing exactly the fields that were supplied,
and either applies it to the record store with a single update-returning
statement, or — when the change-set is empty — reads and returns the
current record.  Prices are persisted in a text (fixed-point decimal)
encoding: the handler converts number to string on write
(`price.toString()`) and string to number on return (`parseFloat`).
-/

/-! ## Decimal numbers and the text encoding of prices -/

/-- A positive decimal number `mantissa / 10 ^ exp`, the model of a native
numeric `price` value supplied by a client.  Scale is explicit because the
store keeps prices in a decimal text encoding. -/
structure Dec where
  mantissa : Nat
  exp : Nat
deriving DecidableEq, Repr

/-- The rational value denoted by a decimal. -/
def Dec.toRat (d : Dec) : ℚ := (d.mantissa : ℚ) / (10 : ℚ) ^ d.exp

/-- The character for one decimal digit. -/
def digitChar (d : Nat) : Char := Char.ofNat (48 + d)

/-- The numeric value of one decimal-digit character. -/
def charToDigit (c : Char) : Nat := c.toNat - 48

/-- Decimal rendering of a natural number, most significant digit first
(the integer part of JavaScript number-to-string). -/
def renderNatChars (n : Nat) : List Char :=
  if n = 0 then [digitChar 0] else ((Nat.digits 10 n).map digitChar).reverse

/-- The fractional digits of a price: `f` rendered as exactly `e` digits,
zero padded on the left, most significant first. -/
def fracDigits (e f : Nat) : List Char :=
  ((Nat.digits 10 f ++ List.replicate (e - (Nat.digits 10 f).length) 0).map
    digitChar).reverse

/-- Number-to-string conversion applied to a price before it is written to
the numeric column (`updateFields.price.toString()`). -/
def Dec.render (d : Dec) : String :=
  if d.exp = 0 then String.mk (renderNatChars d.mantissa)
  else String.mk
    (renderNatChars (d.mantissa / 10 ^ d.exp) ++
      '.' :: fracDigits d.exp (d.mantissa % 10 ^ d.exp))

/-- Decimal value of a digit string, most significant digit first. -/
def parseNatChars (cs : List Char) : Nat :=
  List.foldl (fun acc c => acc * 10 + charToDigit c) 0 cs

/-- Split a character list at the first decimal point. -/
def splitDot : List Char → List Char × List Char
  | [] => ([], [])
  | c :: cs =>
    if c = '.' then ([], cs)
    else
      let p := splitDot cs
      (c :: p.1, p.2)

/-- String-to-number conversion applied to the stored price text on return
(`parseFloat(row.price)`): integer part plus fractional part. -/
def parsePrice (s : String) : ℚ :=
  let p := splitDot s.data
  (parseNatChars p.1 : ℚ) + (parseNatChars p.2 : ℚ) / (10 : ℚ) ^ p.2.length

/-! ## Data model: persisted rows, native products, update requests -/

/-- A persisted product row as the record store keeps it: the `price`
column is text encoded. -/
structure StoredProduct where
  id : Int
  name : String
  description : Option String
  price : String
  stock_quantity : Int
  created_at : Int
deriving DecidableEq, Repr

/-- A product at the handler boundary: `price` is a native number
(modelled as a rational). -/
structure Product where
  id : Int
  name : String
  description : Option String
  price : ℚ
  stock_quantity : Int
  created_at : Int
deriving DecidableEq, Repr

/-- The update request (`UpdateProductInput` in `schema.ts`): the target
`id` plus four independently optional fields.  `description` is optional
and nullable, so its model is an option of an option: `none` is an omitted
field, `some none` is an explicit null, `some (some s)` a supplied text. -/
structure UpdateProductInput where
  id : Int
  name : Option String
  description : Option (Option String)
  price : Option Dec
  stock_quantity : Option Int
deriving DecidableEq, Repr

/-- The optional fields remaining after `const { id, ...updateFields }`. -/
structure UpdateFields where
  name : Option String
  description : Option (Option String)
  price : Option Dec
  stock_quantity : Option Int
deriving DecidableEq, Repr

/-- Destructuring `const { id, ...updateFields } = input`. -/
def UpdateProductInput.updateFields (i : UpdateProductInput) : UpdateFields :=
  { name := i.name
    description := i.description
    price := i.price
    stock_quantity := i.stock_quantity }

/-- The `toUpdate` object: a key is either absent or holds a value to
write.  The `description` key, when present, holds text or null; the
`price` key holds the text-encoded number. -/
structure ChangeSet where
  name : Option String
  description : Option (Option String)
  price : Option String
  stock_quantity : Option Int
deriving DecidableEq, Repr

/-- Building `toUpdate`: each of the four conditional assignments adds its
key exactly when the input field is not `undefined` (lines 21-32 of the
handler). -/
def buildToUpdate (u : UpdateFields) : ChangeSet :=
  let t : ChangeSet :=
    { name := none, description := none, price := none, stock_quantity := none }
  let t := match u.name with
    | some v => { t with name := some v }
    | none => t
  let t := match u.description with
    | some v => { t with description := some v }
    | none => t
  let t := match u.price with
    | some v => { t with price := some (Dec.render v) }
    | none => t
  match u.stock_quantity with
  | some v => { t with stock_quantity := some v }
  | none => t

/-- `Object.keys(toUpdate).length`. -/
def ChangeSet.numKeys (c : ChangeSet) : Nat :=
  (if c.name.isSome then 1 else 0) + (if c.description.isSome then 1 else 0) +
    (if c.price.isSome then 1 else 0) + (if c.stock_quantity.isSome then 1 else 0)

/-! ## Record store operations and the handler -/

/-- `SELECT ... WHERE id = i`: the rows of the store whose id matches. -/
def dbSelectWhereId (store : List StoredProduct) (i : Int) : List StoredProduct :=
  store.filter (fun r => decide (r.id = i))

/-- Application of the change-set to one row (`.set(toUpdate)`): a key
that is present overwrites the column, an absent key leaves it alone.
`id` and `created_at` have no key and are never written. -/
def applyChangeSet (c : ChangeSet) (r : StoredProduct) : StoredProduct :=
  { r with
    name := match c.name with | some v => v | none => r.name
    description := match c.description with | some v => v | none => r.description
    price := match c.price with | some v => v | none => r.price
    stock_quantity :=
      match c.stock_quantity with | some v => v | none => r.stock_quantity }

/-- The store after `UPDATE ... SET toUpdate WHERE id = i`. -/
def dbUpdateStore (store : List StoredProduct) (c : ChangeSet) (i : Int) :
    List StoredProduct :=
  store.map (fun r => if r.id = i then applyChangeSet c r else r)

/-- The rows produced by `.returning()`: the matched rows with the
change-set applied. -/
def dbUpdateReturning (store : List StoredProduct) (c : ChangeSet) (i : Int) :
    List StoredProduct :=
  (dbSelectWhereId store i).map (applyChangeSet c)

/-- The errors the handler can let escape: the not-found error it throws
itself (its message names the id), or a store-level failure. -/
inductive UpdateError
  | notFound (id : Int)
  | storeFailure (msg : String)
deriving DecidableEq, Repr

/-- Conversion of a row to the returned product: spread the row and
replace `price` by `parseFloat(row.price)` (lines 47-50 and 67-70). -/
def productFromRow (r : StoredProduct) : Product :=
  { id := r.id
    name := r.name
    description := r.description
    price := parsePrice r.price
    stock_quantity := r.stock_quantity
    created_at := r.created_at }

/-- The two fallible store calls the handler makes, as the handler sees
them: each returns rows or fails with a store-level error message.  The
in-memory instantiation below never fails; a failing instantiation models
connectivity or constraint errors. -/
structure Db where
  select : Int → Except String (List StoredProduct)
  update : ChangeSet → Int → Except String (List StoredProduct)

/-- The handler against an arbitrary store client.  The try/catch of the
source logs and rethrows every error unchanged, so the error channel is
the identity: a not-found condition becomes `UpdateError.notFound` and a
store failure surfaces as `UpdateError.storeFailure` with the same
message. -/
def updateProductDb (db : Db) (input : UpdateProductInput) :
    Except UpdateError Product :=
  let toUpdate := buildToUpdate input.updateFields
  if toUpdate.numKeys = 0 then
    match db.select input.id with
    | Except.error e => Except.error (UpdateError.storeFailure e)
    | Except.ok [] => Except.error (UpdateError.notFound input.id)
    | Except.ok (r :: _) => Except.ok (productFromRow r)
  else
    match db.update toUpdate input.id with
    | Except.error e => Except.error (UpdateError.storeFailure e)
    | Except.ok [] => Except.error (UpdateError.notFound input.id)
    | Except.ok (r :: _) => Except.ok (productFromRow r)

/-- The handler against the in-memory record store, tracking the
post-call store contents and the number of update statements executed:
result, post store, write count. -/
def updateProductMem (store : List StoredProduct) (input : UpdateProductInput) :
    Except UpdateError Product × List StoredProduct × Nat :=
  let toUpdate := buildToUpdate input.updateFields
  if toUpdate.numKeys = 0 then
    match dbSelectWhereId store input.id with
    | [] => (Except.error (UpdateError.notFound input.id), store, 0)
    | r :: _ => (Except.ok (productFromRow r), store, 0)
  else
    match dbUpdateReturning store toUpdate input.id with
    | [] => (Except.error (UpdateError.notFound input.id),
             dbUpdateStore store toUpdate input.id, 1)
    | r :: _ => (Except.ok (productFromRow r),
                 dbUpdateStore store toUpdate input.id, 1)

/-- The in-memory store as a never-failing `Db`. -/
def memDb (store : List StoredProduct) : Db :=
  { select := fun i => Except.ok (dbSelectWhereId store i)
    update := fun c i => Except.ok (dbUpdateReturning store c i) }

/-- Sanity: on the in-memory store both presentations of the handler
return the same result. -/
theorem updateProductMem_fst (store : List StoredProduct)
    (input : UpdateProductInput) :
    (updateProductMem store input).1 = updateProductDb (memDb store) input := by
  unfold updateProductMem updateProductDb memDb
  by_cases h : (buildToUpdate input.updateFields).numKeys = 0
  · simp only [h, if_pos rfl]
    cases dbSelectWhereId store input.id <;> rfl
  · simp only [if_neg h]
    cases dbUpdateReturning store (buildToUpdate input.updateFields) input.id <;> rfl

/-! ## Helper lemmas about the price text encoding -/

theorem data_mk (cs : List Char) : (String.mk cs).data = cs := rfl

theorem charToDigit_digitChar (d : Nat) (h : d < 10) :
    charToDigit (digitChar d) = d := by
  interval_cases d <;> decide

theorem digitChar_ne_dot (d : Nat) (h : d < 10) : digitChar d ≠ '.' := by
  interval_cases d <;> decide

theorem parse_foldl_digits (L : List Nat) (h : ∀ d ∈ L, d < 10) (acc : Nat) :
    List.foldl (fun a c => a * 10 + charToDigit c) acc ((L.map digitChar).reverse) =
      acc * 10 ^ L.length + Nat.ofDigits 10 L := by
  induction L generalizing acc with
  | nil => simp [Nat.ofDigits]
  | cons d T ih =>
    have hd : d < 10 := h d (by simp)
    have hT : ∀ x ∈ T, x < 10 := fun x hx => h x (by simp [hx])
    rw [List.map_cons, List.reverse_cons, List.foldl_append, ih hT]
    simp only [List.foldl, charToDigit_digitChar d hd, Nat.ofDigits_cons,
      List.length_cons, pow_succ]
    ring

theorem parseNatChars_renderNatChars (n : Nat) :
    parseNatChars (renderNatChars n) = n := by
  by_cases h : n = 0
  · subst h; decide
  · unfold renderNatChars parseNatChars
    rw [if_neg h,
      parse_foldl_digits _ (fun d hd => Nat.digits_lt_base (by norm_num) hd) 0]
    simp [Nat.ofDigits_digits]

theorem renderNatChars_ne_dot (n : Nat) : ∀ c ∈ renderNatChars n, c ≠ '.' := by
  intro c hc
  unfold renderNatChars at hc
  by_cases h : n = 0
  · rw [if_pos h] at hc
    simp only [List.mem_singleton] at hc
    subst hc; decide
  · rw [if_neg h, List.mem_reverse, List.mem_map] at hc
    obtain ⟨d, hd, rfl⟩ := hc
    exact digitChar_ne_dot d (Nat.digits_lt_base (by norm_num) hd)

theorem splitDot_no_dot (I : List Char) (h : ∀ c ∈ I, c ≠ '.') :
    splitDot I = (I, []) := by
  induction I with
  | nil => rfl
  | cons c cs ih =>
    have hc : c ≠ '.' := h c (by simp)
    simp [splitDot, hc, ih (fun x hx => h x (by simp [hx]))]

theorem splitDot_append (I F : List Char) (h : ∀ c ∈ I, c ≠ '.') :
    splitDot (I ++ '.' :: F) = (I, F) := by
  induction I with
  | nil => simp [splitDot]
  | cons c cs ih =>
    have hc : c ≠ '.' := h c (by simp)
    simp [splitDot, hc, ih (fun x hx => h x (by simp [hx]))]

theorem ofDigits_replicate_zero (k : Nat) :
    Nat.ofDigits 10 (List.replicate k 0) = 0 := by
  induction k with
  | zero => simp [Nat.ofDigits]
  | succ k ih => rw [List.replicate_succ, Nat.ofDigits_cons, ih]

theorem parseNatChars_fracDigits (e f : Nat) :
    parseNatChars (fracDigits e f) = f := by
  unfold fracDigits parseNatChars
  have hd : ∀ d ∈ Nat.digits 10 f ++
      List.replicate (e - (Nat.digits 10 f).length) 0, d < 10 := by
    intro d hd
    rcases List.mem_append.mp hd with h1 | h1
    · exact Nat.digits_lt_base (by norm_num) h1
    · rw [List.eq_of_mem_replicate h1]; norm_num
  rw [parse_foldl_digits _ hd 0]
  simp [Nat.ofDigits_append, Nat.ofDigits_digits, ofDigits_replicate_zero]

theorem fracDigits_length (e f : Nat) (h : f < 10 ^ e) :
    (fracDigits e f).length = e := by
  unfold fracDigits
  have hlen : (Nat.digits 10 f).length ≤ e := by
    by_cases hf : f = 0
    · subst hf; simp
    · have hlog := Nat.log_lt_of_lt_pow hf h
      rw [Nat.digits_len 10 f (by norm_num) hf]
      omega
  simp only [List.length_reverse, List.length_map, List.length_append,
    List.length_replicate]
  omega

/-- Claim C6: the price conversions at the handler boundary round-trip —
rendering a decimal price to the text encoding of the numeric column
(number-to-string, applied on write) and parsing it back
(string-to-number, applied on return) yields exactly the value of the
input decimal. -/
theorem price_text_encoding_round_trip (p : Dec) :
    parsePrice (Dec.render p) = Dec.toRat p := by
  obtain ⟨m, e⟩ := p
  unfold Dec.render Dec.toRat parsePrice
  by_cases he : e = 0
  · subst he
    rw [if_pos rfl]
    simp only [data_mk]
    rw [splitDot_no_dot _ (renderNatChars_ne_dot m)]
    rw [parseNatChars_renderNatChars]
    have h0 : parseNatChars [] = 0 := rfl
    simp [h0]
  · rw [if_neg he]
    simp only [data_mk]
    rw [splitDot_append _ _ (renderNatChars_ne_dot _)]
    have hpow : 0 < 10 ^ e := Nat.pos_pow_of_pos e (by norm_num)
    have hmod : m % 10 ^ e < 10 ^ e := Nat.mod_lt _ hpow
    simp only [parseNatChars_renderNatChars, parseNatChars_fracDigits,
      fracDigits_length e _ hmod]
    have h10 : ((10 : ℚ) ^ e) ≠ 0 := by positivity
    rw [eq_div_iff h10, add_mul, div_mul_cancel₀ _ h10]
    norm_cast
    rw [Nat.mul_comm]
    exact Nat.div_add_mod m (10 ^ e)

/-! ## Helper lemmas about the change-set and the store -/

theorem buildToUpdate_name (u : UpdateFields) : (buildToUpdate u).name = u.name := by
  obtain ⟨n, d, p, q⟩ := u
  cases n <;> cases d <;> cases p <;> cases q <;> rfl

theorem buildToUpdate_description (u : UpdateFields) :
    (buildToUpdate u).description = u.description := by
  obtain ⟨n, d, p, q⟩ := u
  cases n <;> cases d <;> cases p <;> cases q <;> rfl

theorem buildToUpdate_price (u : UpdateFields) :
    (buildToUpdate u).price = Option.map Dec.render u.price := by
  obtain ⟨n, d, p, q⟩ := u
  cases n <;> cases d <;> cases p <;> cases q <;> rfl

theorem buildToUpdate_stock (u : UpdateFields) :
    (buildToUpdate u).stock_quantity = u.stock_quantity := by
  obtain ⟨n, d, p, q⟩ := u
  cases n <;> cases d <;> cases p <;> cases q <;> rfl

theorem numKeys_eq_zero_iff (u : UpdateFields) :
    (buildToUpdate u).numKeys = 0 ↔
      u.name = none ∧ u.description = none ∧ u.price = none ∧
        u.stock_quantity = none := by
  obtain ⟨n, d, p, q⟩ := u
  cases n <;> cases d <;> cases p <;> cases q <;>
    simp [buildToUpdate, ChangeSet.numKeys]

theorem dbSelectWhereId_eq_nil_iff (store : List StoredProduct) (i : Int) :
    dbSelectWhereId store i = [] ↔ ∀ r ∈ store, r.id ≠ i := by
  simp [dbSelectWhereId, List.filter_eq_nil_iff]

theorem applyChangeSet_id (c : ChangeSet) (r : StoredProduct) :
    (applyChangeSet c r).id = r.id := rfl

theorem applyChangeSet_created_at (c : ChangeSet) (r : StoredProduct) :
    (applyChangeSet c r).created_at = r.created_at := rfl

theorem dbUpdateStore_no_match (store : List StoredProduct) (c : ChangeSet)
    (i : Int) (h : ∀ r ∈ store, r.id ≠ i) : dbUpdateStore store c i = store := by
  unfold dbUpdateStore
  induction store with
  | nil => rfl
  | cons a t ih =>
    have ha : a.id ≠ i := h a (by simp)
    simp [ha, ih (fun x hx => h x (by simp [hx]))]

theorem updateProductMem_store_eq (store : List StoredProduct)
    (input : UpdateProductInput) :
    (updateProductMem store input).2.1 =
      if (buildToUpdate input.updateFields).numKeys = 0 then store
      else dbUpdateStore store (buildToUpdate input.updateFields) input.id := by
  unfold updateProductMem
  by_cases h : (buildToUpdate input.updateFields).numKeys = 0
  · simp only [h, if_pos rfl]
    cases dbSelectWhereId store input.id <;> rfl
  · simp only [if_neg h]
    cases dbUpdateReturning store (buildToUpdate input.updateFields) input.id <;> rfl

theorem updateProductMem_writes_eq (store : List StoredProduct)
    (input : UpdateProductInput) :
    (updateProductMem store input).2.2 =
      if (buildToUpdate input.updateFields).numKeys = 0 then 0 else 1 := by
  unfold updateProductMem
  by_cases h : (buildToUpdate input.updateFields).numKeys = 0
  · simp only [h, if_pos rfl]
    cases dbSelectWhereId store input.id <;> rfl
  · simp only [if_neg h]
    cases dbUpdateReturning store (buildToUpdate input.updateFields) input.id <;> rfl

/-! ## Concrete fixtures used by the witnesses -/

/-- A persisted sample row. -/
def sampleRow : StoredProduct :=
  { id := 1, name := "A", description := some "d", price := "50.00",
    stock_quantity := 10, created_at := 5 }

/-- A request supplying no optional field at all. -/
def emptyInput : UpdateProductInput :=
  { id := 1, name := none, description := none, price := none,
    stock_quantity := none }

/-- A request supplying no optional field, targeting an absent id. -/
def missingInput : UpdateProductInput :=
  { id := 999, name := none, description := none, price := none,
    stock_quantity := none }

/-- A request clearing the description with an explicit null. -/
def nullDescInput : UpdateProductInput :=
  { id := 1, name := none, description := some none, price := none,
    stock_quantity := none }

/-- A request supplying falsy but defined values: empty name, zero stock. -/
def falsyInput : UpdateProductInput :=
  { id := 1, name := some "", description := none, price := none,
    stock_quantity := some 0 }

/-- A request supplying every optional field. -/
def fullInput : UpdateProductInput :=
  { id := 1, name := some "B", description := some (some "e"),
    price := some { mantissa := 9999, exp := 2 }, stock_quantity := some 200 }

/-- A store client whose calls always fail at the store level. -/
def failDb : Db :=
  { select := fun _ => Except.error "connection lost"
    update := fun _ _ => Except.error "connection lost" }

/-! ## The claimed properties -/

/-- Claim C1: the change-set built by the handler contains exactly the
non-omitted fields of the request — `name` is present in the change-set
iff the request supplied it, `description` iff it is not omitted (an
explicit null is forwarded as a null value), `price` iff present
(converted to the text encoding of the numeric column), `stock_quantity`
iff present; `ChangeSet` has no key other than these four, so no other
field ever enters it. -/
theorem change_set_exact_fields (input : UpdateProductInput) :
    (buildToUpdate input.updateFields).name = input.name ∧
    (buildToUpdate input.updateFields).description = input.description ∧
    (buildToUpdate input.updateFields).price = Option.map Dec.render input.price ∧
    (buildToUpdate input.updateFields).stock_quantity = input.stock_quantity :=
  ⟨buildToUpdate_name _, buildToUpdate_description _, buildToUpdate_price _,
    buildToUpdate_stock _⟩

/-- Claim C7: a store-level failure raised by either store call is
propagated to the caller with its content unchanged: the handler's
catch block rethrows the very error it observed, with no retry and no
replacement. -/
theorem updateProduct_propagates_store_error (db : Db)
    (input : UpdateProductInput) (e : String) :
    ((buildToUpdate input.updateFields).numKeys = 0 →
      db.select input.id = Except.error e →
      updateProductDb db input = Except.error (UpdateError.storeFailure e)) ∧
    ((buildToUpdate input.updateFields).numKeys ≠ 0 →
      db.update (buildToUpdate input.updateFields) input.id = Except.error e →
      updateProductDb db input = Except.error (UpdateError.storeFailure e)) := by
  constructor
  · intro hk hsel
    unfold updateProductDb
    simp only [hk, if_true, hsel]
  · intro hk hupd
    unfold updateProductDb
    simp only [if_neg hk, hupd]

/-- Witness for C7 at a concrete failing store client and request. -/
theorem updateProduct_propagates_store_error_witness :
    updateProductDb failDb emptyInput =
      Except.error (UpdateError.storeFailure "connection lost") :=
  (updateProduct_propagates_store_error failDb emptyInput "connection lost").1
    rfl rfl

/-- Claim C9: the handler is deterministic — identical requests against
identical store states produce identical results, post-call stores and
write counts. -/
theorem updateProduct_deterministic (s1 s2 : List StoredProduct)
    (i1 i2 : UpdateProductInput) (hs : s1 = s2) (hi : i1 = i2) :
    updateProductMem s1 i1 = updateProductMem s2 i2 := by
  subst hs; subst hi; rfl

/-- Witness for C9 at a concrete store and request. -/
theorem updateProduct_deterministic_witness :
    updateProductMem [sampleRow] emptyInput = updateProductMem [sampleRow] emptyInput :=
  updateProduct_deterministic [sampleRow] [sampleRow] emptyInput emptyInput rfl rfl

/-! ## Result helpers shared by several properties -/

theorem updateProductMem_error_no_match (store : List StoredProduct)
    (input : UpdateProductInput) (h : ∀ r ∈ store, r.id ≠ input.id) :
    (updateProductMem store input).1 =
      Except.error (UpdateError.notFound input.id) := by
  have hsel : dbSelectWhereId store input.id = [] :=
    (dbSelectWhereId_eq_nil_iff store input.id).mpr h
  have hret : dbUpdateReturning store (buildToUpdate input.updateFields)
      input.id = [] := by
    unfold dbUpdateReturning
    rw [hsel]
    rfl
  unfold updateProductMem
  by_cases hk : (buildToUpdate input.updateFields).numKeys = 0
  · simp only [hk, if_true, hsel]
  · simp only [if_neg hk, hret]

theorem updateProductMem_ok_of_match (store : List StoredProduct)
    (input : UpdateProductInput) (r : StoredProduct) (hr : r ∈ store)
    (hid : r.id = input.id) :
    ∃ p, (updateProductMem store input).1 = Except.ok p := by
  have hmem : r ∈ dbSelectWhereId store input.id := by
    unfold dbSelectWhereId
    rw [List.mem_filter]
    exact ⟨hr, by simp [hid]⟩
  unfold updateProductMem
  by_cases hk : (buildToUpdate input.updateFields).numKeys = 0
  · cases hsel : dbSelectWhereId store input.id with
    | nil => rw [hsel] at hmem; exact absurd hmem (List.not_mem_nil r)
    | cons a t => exact ⟨productFromRow a, by simp only [hk, if_true, hsel]⟩
  · cases hsel : dbSelectWhereId store input.id with
    | nil => rw [hsel] at hmem; exact absurd hmem (List.not_mem_nil r)
    | cons a t =>
      refine ⟨productFromRow
        (applyChangeSet (buildToUpdate input.updateFields) a), ?_⟩
      have hret : dbUpdateReturning store (buildToUpdate input.updateFields)
          input.id = applyChangeSet (buildToUpdate input.updateFields) a ::
            t.map (applyChangeSet (buildToUpdate input.updateFields)) := by
        unfold dbUpdateReturning
        rw [hsel]
        rfl
      simp only [if_neg hk, hret]

/-- Claim C2: a request whose id matches no persisted row fails with the
not-found error on both paths — the empty-change-set read path and the
apply-change-set path — and a request whose id does match returns a
product and raises no error. -/
theorem updateProduct_not_found_iff (store : List StoredProduct)
    (input : UpdateProductInput) :
    ((∀ r ∈ store, r.id ≠ input.id) →
      (updateProductMem store input).1 =
        Except.error (UpdateError.notFound input.id)) ∧
    ((∃ r ∈ store, r.id = input.id) →
      ∃ p, (updateProductMem store input).1 = Except.ok p) :=
  ⟨fun h => updateProductMem_error_no_match store input h,
   fun h => by
    obtain ⟨r, hr, hid⟩ := h
    exact updateProductMem_ok_of_match store input r hr hid⟩

/-- Witness for C2: id 999 is absent from a one-row store holding id 1. -/
theorem updateProduct_not_found_iff_witness :
    (updateProductMem [sampleRow] missingInput).1 =
      Except.error (UpdateError.notFound 999) :=
  (updateProduct_not_found_iff [sampleRow] missingInput).1 (by decide)

/-- A request targeting an absent id with a field supplied. -/
def missingFieldInput : UpdateProductInput :=
  { id := 999, name := some "X", description := none, price := none,
    stock_quantity := none }

/-- Claim C8: a request targeting a non-existent id — whatever fields it
sets, including none — fails with a not-found error identifying that id,
and the record store is left exactly as it was: no row is created and no
row is modified. -/
theorem updateProduct_missing_id_atomic (store : List StoredProduct)
    (input : UpdateProductInput) (h : ∀ r ∈ store, r.id ≠ input.id) :
    (updateProductMem store input).1 =
      Except.error (UpdateError.notFound input.id) ∧
    (updateProductMem store input).2.1 = store := by
  refine ⟨updateProductMem_error_no_match store input h, ?_⟩
  rw [updateProductMem_store_eq]
  by_cases hk : (buildToUpdate input.updateFields).numKeys = 0
  · rw [if_pos hk]
  · rw [if_neg hk]
    exact dbUpdateStore_no_match store _ input.id h

/-- Witness for C8: id 999 absent, a name supplied; the store keeps its
single row untouched. -/
theorem updateProduct_missing_id_atomic_witness :
    (updateProductMem [sampleRow] missingFieldInput).1 =
      Except.error (UpdateError.notFound 999) ∧
    (updateProductMem [sampleRow] missingFieldInput).2.1 = [sampleRow] :=
  updateProduct_missing_id_atomic [sampleRow] missingFieldInput (by decide)

/-- Claim C3: frame effect — after a call, row for row, the post-call
store relates to the pre-call store as follows: `id` and `created_at` are
always retained, every omitted field retains its prior stored value
exactly, and every row whose id is not the target is wholly untouched. -/
theorem updateProduct_frame_effect (store : List StoredProduct)
    (input : UpdateProductInput) :
    List.Forall₂ (fun pre cur =>
      cur.id = pre.id ∧ cur.created_at = pre.created_at ∧
      (input.name = none → cur.name = pre.name) ∧
      (input.description = none → cur.description = pre.description) ∧
      (input.price = none → cur.price = pre.price) ∧
      (input.stock_quantity = none → cur.stock_quantity = pre.stock_quantity) ∧
      (pre.id ≠ input.id → cur = pre))
      store (updateProductMem store input).2.1 := by
  rw [updateProductMem_store_eq]
  by_cases hk : (buildToUpdate input.updateFields).numKeys = 0
  · rw [if_pos hk, List.forall₂_same]
    intro x _
    exact ⟨rfl, rfl, fun _ => rfl, fun _ => rfl, fun _ => rfl, fun _ => rfl,
      fun _ => rfl⟩
  · rw [if_neg hk]
    unfold dbUpdateStore
    rw [List.forall₂_map_right_iff, List.forall₂_same]
    intro x _
    by_cases hxid : x.id = input.id
    · rw [if_pos hxid]
      refine ⟨applyChangeSet_id _ _, applyChangeSet_created_at _ _,
        ?_, ?_, ?_, ?_, fun hne => absurd hxid hne⟩
      · intro hn
        have hc : (buildToUpdate input.updateFields).name = none := by
          rw [buildToUpdate_name]; exact hn
        simp [applyChangeSet, hc]
      · intro hd
        have hc : (buildToUpdate input.updateFields).description = none := by
          rw [buildToUpdate_description]; exact hd
        simp [applyChangeSet, hc]
      · intro hp
        have hc : (buildToUpdate input.updateFields).price = none := by
          rw [buildToUpdate_price]
          have : input.updateFields.price = none := hp
          rw [this]
          rfl
        simp [applyChangeSet, hc]
      · intro hq
        have hc : (buildToUpdate input.updateFields).stock_quantity = none := by
          rw [buildToUpdate_stock]; exact hq
        simp [applyChangeSet, hc]
    · rw [if_neg hxid]
      exact ⟨rfl, rfl, fun _ => rfl, fun _ => rfl, fun _ => rfl, fun _ => rfl,
        fun _ => rfl⟩

/-- Claim C4: every call performs zero or one write; a request supplying
no optional field performs zero writes, leaves the store untouched and
returns the currently persisted record (converted at the boundary);
every request supplying at least one field executes exactly one update
statement. -/
theorem updateProduct_zero_or_one_write (store : List StoredProduct)
    (input : UpdateProductInput) :
    ((updateProductMem store input).2.2 = 0 ∨
      (updateProductMem store input).2.2 = 1) ∧
    (input.name = none → input.description = none → input.price = none →
      input.stock_quantity = none →
      (updateProductMem store input).2.2 = 0 ∧
      (updateProductMem store input).2.1 = store ∧
      ∀ r rest, dbSelectWhereId store input.id = r :: rest →
        (updateProductMem store input).1 = Except.ok (productFromRow r)) ∧
    (¬(input.name = none ∧ input.description = none ∧ input.price = none ∧
        input.stock_quantity = none) →
      (updateProductMem store input).2.2 = 1) := by
  have hw := updateProductMem_writes_eq store input
  have hkiff := numKeys_eq_zero_iff input.updateFields
  refine ⟨?_, ?_, ?_⟩
  · rw [hw]
    by_cases hk : (buildToUpdate input.updateFields).numKeys = 0
    · exact Or.inl (by rw [if_pos hk])
    · exact Or.inr (by rw [if_neg hk])
  · intro h1 h2 h3 h4
    have hk : (buildToUpdate input.updateFields).numKeys = 0 :=
      hkiff.mpr ⟨h1, h2, h3, h4⟩
    refine ⟨by rw [hw, if_pos hk],
      by rw [updateProductMem_store_eq, if_pos hk], ?_⟩
    intro r rest hsel
    unfold updateProductMem
    simp only [hk, if_true, hsel]
  · intro hnot
    have hk : ¬(buildToUpdate input.updateFields).numKeys = 0 := by
      intro hk0
      exact hnot (hkiff.mp hk0)
    rw [hw, if_neg hk]

/-- Witness for C4: the field-free request against the one-row store
returns the stored row, writes nothing and keeps the store intact. -/
theorem updateProduct_zero_or_one_write_witness :
    (updateProductMem [sampleRow] emptyInput).2.2 = 0 ∧
    (updateProductMem [sampleRow] emptyInput).2.1 = [sampleRow] ∧
    (updateProductMem [sampleRow] emptyInput).1 =
      Except.ok (productFromRow sampleRow) := by
  obtain ⟨hzero, hstore, hok⟩ :=
    (updateProduct_zero_or_one_write [sampleRow] emptyInput).2.1 rfl rfl rfl rfl
  exact ⟨hzero, hstore, hok sampleRow [] (by decide)⟩

/-- Witness for C3 at a concrete store and request. -/
theorem updateProduct_frame_effect_witness :
    List.Forall₂ (fun pre cur =>
      cur.id = pre.id ∧ cur.created_at = pre.created_at ∧
      (nullDescInput.name = none → cur.name = pre.name) ∧
      (nullDescInput.description = none → cur.description = pre.description) ∧
      (nullDescInput.price = none → cur.price = pre.price) ∧
      (nullDescInput.stock_quantity = none →
        cur.stock_quantity = pre.stock_quantity) ∧
      (pre.id ≠ nullDescInput.id → cur = pre))
      [sampleRow] (updateProductMem [sampleRow] nullDescInput).2.1 :=
  updateProduct_frame_effect [sampleRow] nullDescInput

/-- Claim C5: a request carrying an explicit null `description` against a
row whose description is non-null forwards the null to the change-set
(never collapsing it into omission), returns a product whose description
is the absent value — distinguishable from the prior text — and stores
the absent value for every matching row. -/
theorem updateProduct_explicit_null_description (store : List StoredProduct)
    (input : UpdateProductInput) (r : StoredProduct) (s : String)
    (hdesc : input.description = some none) (hr : r ∈ store)
    (hid : r.id = input.id) (hprior : r.description = some s) :
    (buildToUpdate input.updateFields).description = some none ∧
    (∃ p, (updateProductMem store input).1 = Except.ok p ∧
      p.description = none ∧ p.description ≠ some s) ∧
    ∀ cur ∈ (updateProductMem store input).2.1, cur.id = input.id →
      cur.description = none := by
  have hcdesc : (buildToUpdate input.updateFields).description = some none := by
    rw [buildToUpdate_description]; exact hdesc
  have hk : ¬(buildToUpdate input.updateFields).numKeys = 0 := by
    intro hk0
    have hnone : input.updateFields.description = none :=
      ((numKeys_eq_zero_iff input.updateFields).mp hk0).2.1
    have : input.description = none := hnone
    rw [this] at hdesc
    exact Option.noConfusion hdesc
  have hmem : r ∈ dbSelectWhereId store input.id := by
    unfold dbSelectWhereId
    rw [List.mem_filter]
    exact ⟨hr, by simp [hid]⟩
  refine ⟨hcdesc, ?_, ?_⟩
  · cases hsel : dbSelectWhereId store input.id with
    | nil => rw [hsel] at hmem; exact absurd hmem (List.not_mem_nil r)
    | cons a t =>
      refine ⟨productFromRow
        (applyChangeSet (buildToUpdate input.updateFields) a), ?_, ?_, ?_⟩
      · have hret : dbUpdateReturning store (buildToUpdate input.updateFields)
            input.id = applyChangeSet (buildToUpdate input.updateFields) a ::
              t.map (applyChangeSet (buildToUpdate input.updateFields)) := by
          unfold dbUpdateReturning
          rw [hsel]
          rfl
        unfold updateProductMem
        simp only [if_neg hk, hret]
      · simp [productFromRow, applyChangeSet, hcdesc]
      · simp [productFromRow, applyChangeSet, hcdesc]
  · intro cur hcur hcurid
    rw [updateProductMem_store_eq, if_neg hk] at hcur
    unfold dbUpdateStore at hcur
    rw [List.mem_map] at hcur
    obtain ⟨pre, hpre, hpc⟩ := hcur
    by_cases hpid : pre.id = input.id
    · rw [if_pos hpid] at hpc
      rw [← hpc]
      simp [applyChangeSet, hcdesc]
    · rw [if_neg hpid] at hpc
      rw [← hpc] at hcurid
      exact absurd hcurid hpid

/-- Witness for C5: clearing the sample row's description "d". -/
theorem updateProduct_explicit_null_description_witness :
    (buildToUpdate nullDescInput.updateFields).description = some none ∧
    (applyChangeSet (buildToUpdate nullDescInput.updateFields)
      sampleRow).description = none :=
  ⟨(updateProduct_explicit_null_description [sampleRow] nullDescInput sampleRow
      "d" rfl (by decide) rfl rfl).1,
   (updateProduct_explicit_null_description [sampleRow] nullDescInput sampleRow
      "d" rfl (by decide) rfl rfl).2.2
     (applyChangeSet (buildToUpdate nullDescInput.updateFields) sampleRow)
     (by decide) (by decide)⟩

/-- Claim C10: presence is decided by the omitted/defined distinction and
never by truthiness — an empty-string `name` and a zero `stock_quantity`
are included in the change-set and written to every matching row exactly
like any other supplied value. -/
theorem updateProduct_falsy_defined_values (store : List StoredProduct)
    (input : UpdateProductInput) (hname : input.name = some "")
    (hstock : input.stock_quantity = some 0) :
    (buildToUpdate input.updateFields).name = some "" ∧
    (buildToUpdate input.updateFields).stock_quantity = some 0 ∧
    (buildToUpdate input.updateFields).numKeys ≠ 0 ∧
    ∀ cur ∈ (updateProductMem store input).2.1, cur.id = input.id →
      cur.name = "" ∧ cur.stock_quantity = 0 := by
  have hcname : (buildToUpdate input.updateFields).name = some "" := by
    rw [buildToUpdate_name]; exact hname
  have hcstock : (buildToUpdate input.updateFields).stock_quantity = some 0 := by
    rw [buildToUpdate_stock]; exact hstock
  have hk : (buildToUpdate input.updateFields).numKeys ≠ 0 := by
    intro hk0
    have hnone : input.updateFields.name = none :=
      ((numKeys_eq_zero_iff input.updateFields).mp hk0).1
    have : input.name = none := hnone
    rw [this] at hname
    exact Option.noConfusion hname
  refine ⟨hcname, hcstock, hk, ?_⟩
  intro cur hcur hcurid
  rw [updateProductMem_store_eq, if_neg hk] at hcur
  unfold dbUpdateStore at hcur
  rw [List.mem_map] at hcur
  obtain ⟨pre, hpre, hpc⟩ := hcur
  by_cases hpid : pre.id = input.id
  · rw [if_pos hpid] at hpc
    rw [← hpc]
    constructor
    · simp [applyChangeSet, hcname]
    · simp [applyChangeSet, hcstock]
  · rw [if_neg hpid] at hpc
    rw [← hpc] at hcurid
    exact absurd hcurid hpid

/-- Witness for C10: empty name and zero stock against the sample row. -/
theorem updateProduct_falsy_defined_values_witness :
    (buildToUpdate falsyInput.updateFields).name = some "" ∧
    (buildToUpdate falsyInput.updateFields).stock_quantity = some 0 ∧
    (applyChangeSet (buildToUpdate falsyInput.updateFields) sampleRow).name = "" ∧
    (applyChangeSet (buildToUpdate falsyInput.updateFields)
      sampleRow).stock_quantity = 0 := by
  obtain ⟨h1, h2, -, h4⟩ :=
    updateProduct_falsy_defined_values [sampleRow] falsyInput rfl rfl
  obtain ⟨h5, h6⟩ := h4
    (applyChangeSet (buildToUpdate falsyInput.updateFields) sampleRow)
    (by decide) (by decide)
  exact ⟨h1, h2, h5, h6⟩
